import Mathlib

/-!
Verification of the ACP (Agent Credential Proxy) core library against its
specification.  The Rust sources under `acp-lib/src` are shallowly embedded:

* `serde_json` values are modelled by the inductive `Acp.Json`; the byte-level
  JSON printer/parser of the external `serde_json` crate is modelled as the
  identity bridge on this AST (serde_json parses its own output), so a store
  that holds serialized documents holds `Json` values.
* the secret store (`storage.rs`) is modelled as an association list with
  first-match lookup; `set` prepends (overwrite) and `delete` drops all pairs
  with the key, matching the overwrite/idempotent-delete semantics of the
  `SecretStore` trait.  Stores holding raw secret bytes are association lists
  to byte lists (`List Nat`, each entry < 256).
* `chrono::DateTime<Utc>` values are carried as their RFC 3339 string
  rendering (serde serializes them to exactly that string).
* machine integers are `Nat`/`Int` with explicit saturation where the Rust
  code casts (`as u8` / `as usize` on `f64` saturate; on the integral doubles
  modelled here that is an exact clamp).

Types that live in the crate but are missing from the provided sources
(`types.rs`, `error.rs`, `http_utils.rs`) are modelled from the specification
and marked `Modelled from the spec:` in their doc comments; external
collaborators (the HTTP parser, the Boa plugin loader and transform runner)
are passed to the embedded pipeline as function parameters.
-/

namespace Acp

/-- JSON value AST, modelling `serde_json::Value` as produced/consumed by the
serialization in `registry.rs` and `token_cache.rs`.  The only numbers in the
embedded documents are non-negative (`version : u32`), so JSON numbers are
modelled as naturals. -/
inductive Json where
  | null : Json
  | bool (b : Bool) : Json
  | num (n : Nat) : Json
  | str (s : String) : Json
  | arr (xs : List Json) : Json
  | obj (fields : List (String × Json)) : Json

/-- Field lookup in a JSON object, as serde's derived deserializer does:
the first field with the given name (derived encoders emit unique keys). -/
def Json.getField : Json → String → Option Json
  | .obj fields, k => go fields k
  | _, _ => none
where go : List (String × Json) → String → Option Json
  | [], _ => none
  | (k', v) :: rest, k => if k' = k then some v else go rest k

/-- Extract a JSON string. -/
def Json.asStr : Json → Option String
  | .str s => some s
  | _ => none

/-- Extract a JSON number as a `u32` (bounds checked as serde does when
deserializing into `u32`). -/
def Json.asU32 : Json → Option Nat
  | .num n => if n < 4294967296 then some n else none
  | _ => none

/-- Extract a JSON array. -/
def Json.asArr : Json → Option (List Json)
  | .arr xs => some xs
  | _ => none

/-- Decode each element of a JSON array in order, failing if any element
fails, as serde does for `Vec<T>`. -/
def decodeList (f : Json → Option α) : List Json → Option (List α)
  | [] => some []
  | j :: rest =>
    match f j with
    | none => none
    | some a =>
      match decodeList f rest with
      | none => none
      | some as' => some (a :: as')

/-- Error type of the crate (`error.rs` is not in the provided sources).
Modelled from the spec: §7 distinguishes storage, plugin, auth, http-parse and
not-found errors; constructors carry the formatted message. -/
inductive AcpError where
  | storage (msg : String) : AcpError
  | plugin (msg : String) : AcpError
  | auth (msg : String) : AcpError
  | httpParse (msg : String) : AcpError
  | notFound (msg : String) : AcpError
deriving DecidableEq

/-- `Result<T>` of the crate. -/
abbrev AcpResult (α : Type) := Except AcpError α

/-! ## Registry data model (`registry.rs`) -/

/-- Token metadata entry in the registry (`registry.rs`, `TokenEntry`).
`created_at : DateTime<Utc>` is carried as its RFC 3339 rendering. -/
structure TokenEntry where
  token_value : String
  name : String
  created_at : String
deriving DecidableEq

/-- Plugin metadata entry in the registry (`registry.rs`, `PluginEntry`). -/
structure PluginEntry where
  name : String
  hosts : List String
  credential_schema : List String
deriving DecidableEq

/-- Credential metadata entry in the registry (`registry.rs`,
`CredentialEntry`). -/
structure CredentialEntry where
  plugin : String
  field : String
deriving DecidableEq

/-- The complete registry document (`registry.rs`, `RegistryData`). -/
structure RegistryData where
  version : Nat
  tokens : List TokenEntry
  plugins : List PluginEntry
  credentials : List CredentialEntry
deriving DecidableEq

/-- `RegistryData::default()`: version 1, all collections empty. -/
def RegistryData.defaultData : RegistryData :=
  { version := 1, tokens := [], plugins := [], credentials := [] }

/-- Serde-derived serialization of `TokenEntry` (fields in declaration
order). -/
def TokenEntry.toJson (t : TokenEntry) : Json :=
  .obj [("token_value", .str t.token_value), ("name", .str t.name),
        ("created_at", .str t.created_at)]

/-- Serde-derived deserialization of `TokenEntry`: fields looked up by name,
unknown fields ignored, missing or mistyped fields fail. -/
def TokenEntry.fromJson (j : Json) : Option TokenEntry :=
  ((j.getField "token_value").bind Json.asStr).bind (fun tv =>
    ((j.getField "name").bind Json.asStr).bind (fun nm =>
      ((j.getField "created_at").bind Json.asStr).bind (fun ca =>
        some ⟨tv, nm, ca⟩)))

/-- Serde-derived serialization of `PluginEntry`. -/
def PluginEntry.toJson (p : PluginEntry) : Json :=
  .obj [("name", .str p.name), ("hosts", .arr (p.hosts.map Json.str)),
        ("credential_schema", .arr (p.credential_schema.map Json.str))]

/-- Serde-derived deserialization of `PluginEntry`. -/
def PluginEntry.fromJson (j : Json) : Option PluginEntry :=
  ((j.getField "name").bind Json.asStr).bind (fun nm =>
    (((j.getField "hosts").bind Json.asArr).bind (decodeList Json.asStr)).bind
      (fun hs =>
        (((j.getField "credential_schema").bind Json.asArr).bind
            (decodeList Json.asStr)).bind (fun cs =>
          some ⟨nm, hs, cs⟩)))

/-- Serde-derived serialization of `CredentialEntry`. -/
def CredentialEntry.toJson (c : CredentialEntry) : Json :=
  .obj [("plugin", .str c.plugin), ("field", .str c.field)]

/-- Serde-derived deserialization of `CredentialEntry`. -/
def CredentialEntry.fromJson (j : Json) : Option CredentialEntry :=
  ((j.getField "plugin").bind Json.asStr).bind (fun p =>
    ((j.getField "field").bind Json.asStr).bind (fun f =>
      some ⟨p, f⟩))

/-- Serde-derived serialization of `RegistryData`. -/
def RegistryData.toJson (d : RegistryData) : Json :=
  .obj [("version", .num d.version),
        ("tokens", .arr (d.tokens.map TokenEntry.toJson)),
        ("plugins", .arr (d.plugins.map PluginEntry.toJson)),
        ("credentials", .arr (d.credentials.map CredentialEntry.toJson))]

/-- Serde-derived deserialization of `RegistryData`. -/
def RegistryData.fromJson (j : Json) : Option RegistryData :=
  ((j.getField "version").bind Json.asU32).bind (fun v =>
    (((j.getField "tokens").bind Json.asArr).bind
        (decodeList TokenEntry.fromJson)).bind (fun ts =>
      (((j.getField "plugins").bind Json.asArr).bind
          (decodeList PluginEntry.fromJson)).bind (fun ps =>
        (((j.getField "credentials").bind Json.asArr).bind
            (decodeList CredentialEntry.fromJson)).bind (fun cs =>
          some ⟨v, ts, ps, cs⟩))))

/-! ## Secret store (`storage.rs`), modelled as an association list.

Lookup returns the first binding; `set` prepends, so the latest write wins;
`del` removes every binding for the key (the backing file is removed). -/

/-- A secret store holding values of type `α` (serialized documents are
`Json`, raw secrets are byte lists). -/
abbrev Store (α : Type) := List (String × α)

/-- `SecretStore::get`: first binding for the key, `none` when absent. -/
def Store.get : Store α → String → Option α
  | [], _ => none
  | (k', v) :: rest, k => if k' = k then some v else Store.get rest k

/-- `SecretStore::set`: overwrite by prepending. -/
def Store.set (st : Store α) (k : String) (v : α) : Store α := (k, v) :: st

/-- `SecretStore::delete`: idempotent, removes every binding for the key. -/
def Store.del (st : Store α) (k : String) : Store α :=
  st.filter (fun kv => kv.1 ≠ k)

/-! ## Registry operations (`registry.rs`) -/

/-- `Registry::load`: read `_registry`; absent means the default empty
document, a present document that fails to parse is a storage error. -/
def Registry.load (st : Store Json) : AcpResult RegistryData :=
  match st.get "_registry" with
  | some j =>
    match RegistryData.fromJson j with
    | some d => .ok d
    | none => .error (.storage "Failed to parse registry JSON")
  | none => .ok RegistryData.defaultData

/-- `Registry::save`: serialize and store at `_registry` (serialization of
these derived types never fails). -/
def Registry.save (st : Store Json) (d : RegistryData) : Store Json :=
  st.set "_registry" d.toJson

/-- `Registry::remove_token`: load-modify-save; `retain` keeps the entries
whose `token_value` differs from the argument. -/
def Registry.remove_token (st : Store Json) (token_value : String) :
    AcpResult (Store Json) :=
  match Registry.load st with
  | .error e => .error e
  | .ok d =>
    .ok (Registry.save st
      { d with tokens := d.tokens.filter (fun t => t.token_value ≠ token_value) })

/-- `Registry::add_token`: load-modify-save; appends. -/
def Registry.add_token (st : Store Json) (t : TokenEntry) :
    AcpResult (Store Json) :=
  match Registry.load st with
  | .error e => .error e
  | .ok d => .ok (Registry.save st { d with tokens := d.tokens ++ [t] })

/-! ## Token cache (`token_cache.rs`)

`token_cache.rs` keys the store by `token.id` and builds registry rows
`TokenEntry { id, name, created_at, prefix }`.  Those fields do not match the
`TokenEntry { token_value, name, created_at }` declared in `registry.rs` (the
two files cannot compile together); the registry token collection is therefore
embedded here exactly as `token_cache.rs` assumes it, as a list of
`CacheTokenEntry` carried alongside the store. -/

/-- `AgentToken` (`types.rs`, not in the provided sources).  Modelled from the
spec: §3 gives `token_value` (here `token`, as the uses in `token_cache.rs`,
`api.rs` and the migration code in `registry.rs` name it), `name` and
`created_at`; the same uses add the internal identifier `id` and the display
field `prefix` (here `pfx`; `prefix` is reserved in Lean).  `created_at` is
carried as its RFC 3339 rendering. -/
structure AgentToken where
  id : String
  token : String
  name : String
  pfx : String
  created_at : String
deriving DecidableEq

/-- Serde serialization of `AgentToken` (derived; all fields are strings,
`prefix` is the JSON name of `pfx`). -/
def AgentToken.toJson (t : AgentToken) : Json :=
  .obj [("id", .str t.id), ("token", .str t.token), ("name", .str t.name),
        ("prefix", .str t.pfx), ("created_at", .str t.created_at)]

/-- Serde deserialization of `AgentToken`. -/
def AgentToken.fromJson (j : Json) : Option AgentToken :=
  ((j.getField "id").bind Json.asStr).bind (fun i =>
    ((j.getField "token").bind Json.asStr).bind (fun tok =>
      ((j.getField "name").bind Json.asStr).bind (fun nm =>
        ((j.getField "prefix").bind Json.asStr).bind (fun px =>
          ((j.getField "created_at").bind Json.asStr).bind (fun ca =>
            some ⟨i, tok, nm, px, ca⟩)))))

/-- The registry token row as `token_cache.rs` constructs it
(`TokenEntry { id, name, created_at, prefix }`). -/
structure CacheTokenEntry where
  id : String
  name : String
  created_at : String
  pfx : String
deriving DecidableEq

/-- `token_cache.rs` lines 100-106: the registry row built from a token. -/
def AgentToken.toCacheEntry (t : AgentToken) : CacheTokenEntry :=
  ⟨t.id, t.name, t.created_at, t.pfx⟩

/-- State of a `TokenCache`: the shared secret store, the registry token
collection (see the section comment), and the in-memory cache
(`None` = invalidated; the `HashMap` is an insert-overwrites association
list). -/
structure CacheState where
  store : Store Json
  registryTokens : List CacheTokenEntry
  cache : Option (Store AgentToken)

/-- The values of the cached map (`HashMap::values`): one value per live key;
bindings shadowed by an earlier (more recent) insert are dropped. -/
def assocValues (m : List (String × AgentToken)) : List AgentToken :=
  go m []
where go : List (String × AgentToken) → List String → List AgentToken
  | [], _ => []
  | (k, v) :: rest, seen =>
    if seen.contains k then go rest seen else v :: go rest (k :: seen)

/-- `TokenCache::load_cache`: list the registry token rows, load
`token:{entry.id}` for each, skip entries whose value is absent or whose JSON
fails to deserialize (warn), and key the map by `token.token`. -/
def TokenCache.loadCacheMap (s : CacheState) : Store AgentToken :=
  go s.registryTokens []
where go : List CacheTokenEntry → Store AgentToken → Store AgentToken
  | [], m => m
  | e :: rest, m =>
    match s.store.get ("token:" ++ e.id) with
    | none => go rest m
    | some j =>
      match AgentToken.fromJson j with
      | none => go rest m
      | some tok => go rest (m.set tok.token tok)

/-- `TokenCache::get_by_token`: serve from the cache when present, otherwise
load the full map and look up by token value. -/
def TokenCache.get_by_token (s : CacheState) (tok : String) :
    Option AgentToken × CacheState :=
  match s.cache with
  | some m => (m.get tok, s)
  | none =>
    let m := TokenCache.loadCacheMap s
    (m.get tok, { s with cache := some m })

/-- `TokenCache::create`: persist the serialized token at `token:{token.id}`,
append the registry row, invalidate the cache.  The freshly generated token
(`AgentToken::new(name)` draws randomness) is passed as the argument `t`. -/
def TokenCache.create (s : CacheState) (t : AgentToken) : CacheState :=
  { store := s.store.set ("token:" ++ t.id) t.toJson,
    registryTokens := s.registryTokens ++ [t.toCacheEntry],
    cache := none }

/-- `TokenCache::delete(id)`: load the cache if absent, report whether some
cached token has `t.id == id`, delete `token:{id}` from the store, remove the
registry row, invalidate the cache.  (`registry.remove_token(id)` filters by
`token_value` in `registry.rs`, a field the rows built by `token_cache.rs`
do not have; with the id-keyed rows assumed here removal is by `id`.) -/
def TokenCache.delete (s : CacheState) (idArg : String) : CacheState × Bool :=
  let ms :=
    match s.cache with
    | some m => (m, s)
    | none =>
      let m := TokenCache.loadCacheMap s
      (m, { s with cache := some m })
  let existed := (assocValues ms.1).any (fun t => t.id = idArg)
  ({ store := ms.2.store.del ("token:" ++ idArg),
     registryTokens := ms.2.registryTokens.filter (fun e => e.id ≠ idArg),
     cache := none }, existed)

/-! ## UTF-8 (used by `String::from_utf8` checks and string-to-byte
conversion) -/

/-- UTF-8 encoding of one scalar value (the argument is a valid scalar,
as every `Char` holds). -/
def utf8EncodeChar (n : Nat) : List Nat :=
  if n < 128 then [n]
  else if n < 2048 then [192 + n / 64, 128 + n % 64]
  else if n < 65536 then
    [224 + n / 4096, 128 + (n / 64) % 64, 128 + n % 64]
  else
    [240 + n / 262144, 128 + (n / 4096) % 64, 128 + (n / 64) % 64,
     128 + n % 64]

/-- UTF-8 bytes of a string (what `String::into_bytes` yields). -/
def utf8Encode (s : String) : List Nat :=
  (s.data.map (fun c => utf8EncodeChar c.toNat)).flatten

/-- Continuation byte test. -/
def isCont (b : Nat) : Bool := 128 ≤ b ∧ b ≤ 191

/-- Strict UTF-8 decoding (`String::from_utf8`): `none` exactly on invalid
UTF-8 (overlong forms, surrogates, out-of-range and truncated sequences
rejected). -/
def utf8Decode : List Nat → Option (List Char)
  | [] => some []
  | b0 :: rest =>
    if b0 < 128 then (utf8Decode rest).map (fun cs => Char.ofNat b0 :: cs)
    else if b0 < 194 then none
    else if b0 < 224 then
      match rest with
      | b1 :: rest1 =>
        if isCont b1 then
          (utf8Decode rest1).map
            (fun cs => Char.ofNat ((b0 - 192) * 64 + (b1 - 128)) :: cs)
        else none
      | [] => none
    else if b0 < 240 then
      match rest with
      | b1 :: b2 :: rest2 =>
        if (if b0 = 224 then decide (160 ≤ b1 ∧ b1 ≤ 191)
            else if b0 = 237 then decide (128 ≤ b1 ∧ b1 ≤ 159)
            else isCont b1) && isCont b2 then
          (utf8Decode rest2).map
            (fun cs =>
              Char.ofNat ((b0 - 224) * 4096 + (b1 - 128) * 64 + (b2 - 128))
                :: cs)
        else none
      | _ => none
    else if b0 < 245 then
      match rest with
      | b1 :: b2 :: b3 :: rest3 =>
        if (if b0 = 240 then decide (144 ≤ b1 ∧ b1 ≤ 191)
            else if b0 = 244 then decide (128 ≤ b1 ∧ b1 ≤ 143)
            else isCont b1) && isCont b2 && isCont b3 then
          (utf8Decode rest3).map
            (fun cs =>
              Char.ofNat
                ((b0 - 240) * 262144 + (b1 - 128) * 4096 + (b2 - 128) * 64 +
                  (b3 - 128)) :: cs)
        else none
      | _ => none
    else none

/-- Strict UTF-8 decoding to a string. -/
def utf8DecodeStr (bs : List Nat) : Option String :=
  (utf8Decode bs).map (fun cs => ⟨cs⟩)

/-! ## Plugin matcher (`plugin_matcher.rs`)

`ACPPlugin::matches_host` lives in `types.rs`, which is not in the provided
sources; the pattern semantics are modelled from the spec (§4.4). -/

/-- ASCII lowering on a code point (only `A`-`Z` change). -/
def lowerCode (n : Nat) : Nat := if 65 ≤ n ∧ n ≤ 90 then n + 32 else n

/-- Split a label string (as code points) on `.` (code 46). -/
def splitLabels (s : List Nat) : List (List Nat) :=
  go s []
where go : List Nat → List Nat → List (List Nat)
  | [], acc => [acc.reverse]
  | c :: rest, acc =>
    if c = 46 then acc.reverse :: go rest [] else go rest (c :: acc)

/-- Join `.`-separated labels back together (auxiliary, the left inverse of
`splitLabels`). -/
def joinLabels : List (List Nat) → List Nat
  | [] => []
  | [l] => l
  | l :: ls => l ++ 46 :: joinLabels ls

/-- Modelled from the spec: a pattern label equal to `*` (code 42) matches
exactly one non-empty host label; any other label matches by ASCII
case-insensitive equality. -/
def labelMatches (p h : List Nat) : Bool :=
  if p = [42] then !h.isEmpty else p.map lowerCode == h.map lowerCode

/-- Modelled from the spec: pattern and host are split into `.`-separated
labels; they match when the label lists have equal length and each pattern
label admits the corresponding host label. -/
def patternMatches (pat host : String) : Bool :=
  let ps := splitLabels (pat.data.map Char.toNat)
  let hs := splitLabels (host.data.map Char.toNat)
  ps.length == hs.length && (List.zip ps hs).all (fun x => labelMatches x.1 x.2)

/-- `ACPPlugin` (`types.rs`, not in the provided sources).  Modelled from the
spec: a named bundle of match patterns and a credential schema; the transform
code is held by the runtime. -/
structure ACPPlugin where
  name : String
  matchPatterns : List String
  credentialSchema : List String
deriving DecidableEq

/-- `ACPPlugin::matches_host` — modelled from the spec: the host is admitted
when any pattern matches it. -/
def ACPPlugin.matches_host (p : ACPPlugin) (host : String) : Bool :=
  p.matchPatterns.any (fun pat => patternMatches pat host)

/-- The plugin loader (`PluginRuntime::load_plugin_from_code`, not in the
provided sources): from plugin name and stored code bytes to a load error or
the loaded plugin.  `String::from_utf8_lossy` is total and absorbed into the
loader.  Runtime construction failure (a Boa initialization failure
independent of the entry) is outside the pure model. -/
abbrev PluginLoader := String → List Nat → Except String ACPPlugin

/-- `find_matching_plugin` (`plugin_matcher.rs`): walk the registry plugin
rows in stored order; skip a row whose code is absent from the store or whose
code fails to load; return the first loaded plugin admitting the host.  The
plugin rows are the ones `registry.list_plugins()` yields (the pipeline never
writes, so the same immutable collection is read throughout). -/
def find_matching_plugin (host : String) (store : Store (List Nat))
    (loader : PluginLoader) : List PluginEntry → Option ACPPlugin
  | [] => none
  | e :: rest =>
    match store.get ("plugin:" ++ e.name) with
    | none => find_matching_plugin host store loader rest
    | some code =>
      match loader e.name code with
      | .error _ => find_matching_plugin host store loader rest
      | .ok p =>
        if p.matches_host host then some p
        else find_matching_plugin host store loader rest

/-! ## Request transform pipeline (`proxy_transforms.rs`) -/

/-- `ACPCredentials` (`types.rs`, not in the provided sources).  Modelled from
the spec: a mapping field → value; `set` inserts (overwrite by prepending,
first-match lookup). -/
structure ACPCredentials where
  credentials : List (String × String)
deriving DecidableEq

/-- Insert a field. -/
def ACPCredentials.set (c : ACPCredentials) (f v : String) : ACPCredentials :=
  ⟨(f, v) :: c.credentials⟩

/-- Internal HTTP request (`http_utils.rs`, not in the provided sources).
Modelled from the spec: method, url, ordered headers, body bytes.  The
parser/serializer over the wire form are external collaborators passed as
functions. -/
structure HttpRequest where
  method : String
  url : String
  headers : List (String × String)
  body : List Nat
deriving DecidableEq

/-- `load_plugin_credentials` (`proxy_transforms.rs`): filter the registry
credential rows for the plugin, look each value up at
`credential:{plugin}:{field}`; an absent value is skipped, a present value
that is not valid UTF-8 is a storage error, a valid value is inserted. -/
def load_plugin_credentials (plugin_name : String)
    (creds : List CredentialEntry) (store : Store (List Nat)) :
    AcpResult ACPCredentials :=
  go (creds.filter (fun c => c.plugin = plugin_name)) ⟨[]⟩
where go : List CredentialEntry → ACPCredentials → AcpResult ACPCredentials
  | [], acc => .ok acc
  | c :: rest, acc =>
    match store.get ("credential:" ++ plugin_name ++ ":" ++ c.field) with
    | none => go rest acc
    | some bytes =>
      match utf8DecodeStr bytes with
      | none =>
        .error (.storage ("Invalid UTF-8 in credential " ++ "credential:" ++
          plugin_name ++ ":" ++ c.field))
      | some v => go rest (acc.set c.field v)

/-- `parse_and_transform` (`proxy_transforms.rs`): parse, match, load
credentials, and either pass the original bytes through (no plugin match, or
empty credential map) or run the transform and serialize.  The external
collaborators — HTTP parser/serializer, plugin loader, transform runner — are
parameters; the registry collections are the ones the (read-only) pipeline
loads from the store. -/
def parse_and_transform
    (parse : List Nat → AcpResult HttpRequest)
    (transform : ACPPlugin → HttpRequest → ACPCredentials →
      AcpResult HttpRequest)
    (serialize : HttpRequest → AcpResult (List Nat))
    (loader : PluginLoader)
    (request_bytes : List Nat) (hostname : String)
    (plugins : List PluginEntry) (creds : List CredentialEntry)
    (store : Store (List Nat)) : AcpResult (List Nat) :=
  match parse request_bytes with
  | .error e => .error e
  | .ok request =>
    match find_matching_plugin hostname store loader plugins with
    | none => .ok request_bytes
    | some plugin =>
      match load_plugin_credentials plugin.name creds store with
      | .error e => .error e
      | .ok credentials =>
        if credentials.credentials.isEmpty then .ok request_bytes
        else
          match store.get ("plugin:" ++ plugin.name) with
          | none => .error (.plugin ("Plugin code not found for " ++ plugin.name))
          | some codeBytes =>
            match utf8DecodeStr codeBytes with
            | none => .error (.plugin "Invalid UTF-8 in plugin code")
            | some _code =>
              match loader plugin.name codeBytes with
              | .error msg => .error (.plugin msg)
              | .ok _p =>
                match transform plugin request credentials with
                | .error e => .error e
                | .ok transformed =>
                  match serialize transformed with
                  | .error e => .error e
                  | .ok out => .ok out

/-! ## Sandbox data conversion (`plugin_runtime.rs`, `js_value_to_bytes`) -/

/-- The `JsValue` argument shapes `js_value_to_bytes` distinguishes: a string;
an object whose `length` property is a number (`none` = absent or
non-numeric) and whose integer-indexed properties are numbers (`none` =
absent or non-numeric); any other value.  JS numbers are restricted to the
integral doubles the claims concern. -/
inductive JsData where
  | jstr (s : String) : JsData
  | jobj (length : Option Int) (elems : List (Option Int)) : JsData
  | jother : JsData

/-- Rust `as usize` on an (integral) `f64`: saturating; negative values
clamp to 0. -/
def satUsize (n : Int) : Nat := if n < 0 then 0 else n.toNat

/-- Rust `as u8` on an (integral) `f64`: saturating cast, clamping to
`0..=255`. -/
def satU8 (n : Int) : Nat :=
  if n < 0 then 0 else if 255 ≤ n then 255 else n.toNat

/-- The element loop of `js_value_to_bytes`: read the indexed properties in
order, failing on the first absent or non-numeric one, casting each with
`as u8`. -/
def jsArrayBytes (elems : List (Option Int)) : List Nat → Except String (List Nat)
  | [] => .ok []
  | i :: rest =>
    match elems.getD i none with
    | none => .error "Array element must be number"
    | some v =>
      match jsArrayBytes elems rest with
      | .error e => .error e
      | .ok bs => .ok (satU8 v :: bs)

/-- `js_value_to_bytes` (`plugin_runtime.rs` lines 385-414): a string becomes
its UTF-8 bytes; an array-like object with numeric `length` is read
element-wise with `as u8` casts; anything else is a type error. -/
def js_value_to_bytes : JsData → Except String (List Nat)
  | .jstr s => .ok (utf8Encode s)
  | .jobj (some len) elems => jsArrayBytes elems (List.range (satUsize len))
  | .jobj none _ => .error "Expected array-like object with length property"
  | .jother => .error "Expected string or array-like object"

/-! ## Sandbox restrictions (`plugin_runtime.rs`, `apply_sandbox`)

The sandbox script runs in the JS global environment; the environment is a
partial map from global names to values, with the standard lookup rules:
`typeof n !== 'undefined'` is true exactly when `n` is bound to a
non-`undefined` value, a call of an unbound name throws a `ReferenceError`, a
call of a non-callable throws a `TypeError`, and a call (plain or via `new`)
of a function executes its body. -/

/-- A JS global value, as far as the sandbox reasoning needs: `undefined`, a
function whose body throws (the neutralized stubs), some other callable (an
original capability), or a non-callable value. -/
inductive JsVal where
  | undef : JsVal
  | throwingFn (msg : String) : JsVal
  | someFn (tag : String) : JsVal
  | dataVal (tag : String) : JsVal
deriving DecidableEq

/-- The JS global environment. -/
def GlobalEnv := String → Option JsVal

/-- `typeof n !== 'undefined'`: true iff bound to a non-`undefined` value. -/
def GlobalEnv.defined (env : GlobalEnv) (n : String) : Bool :=
  match env n with
  | none => false
  | some .undef => false
  | some _ => true

/-- Global assignment. -/
def GlobalEnv.setG (env : GlobalEnv) (n : String) (v : JsVal) : GlobalEnv :=
  fun m => if m = n then some v else env m

/-- One guarded block of the sandbox script:
`if (typeof n !== 'undefined') \x7b n = function() \x7b throw new Error(msg); \x7d; \x7d`. -/
def GlobalEnv.neutralize (env : GlobalEnv) (n msg : String) : GlobalEnv :=
  if env.defined n then env.setG n (.throwingFn msg) else env

/-- `PluginRuntime::apply_sandbox`: the effect of the sandbox script on the
global environment — `fetch`, `XMLHttpRequest`, `eval` and `Function` are
replaced by throwing stubs when present, and `WebAssembly` is set to
`undefined` when present. -/
def apply_sandbox (env : GlobalEnv) : GlobalEnv :=
  let e1 := env.neutralize "fetch" "fetch is not allowed in plugin sandbox"
  let e2 := e1.neutralize "XMLHttpRequest"
    "XMLHttpRequest is not allowed in plugin sandbox"
  let e3 := e2.neutralize "eval" "eval is not allowed in plugin sandbox"
  let e4 := e3.neutralize "Function"
    "Function constructor is not allowed in plugin sandbox"
  if e4.defined "WebAssembly" then e4.setG "WebAssembly" .undef else e4

/-- Outcome of evaluating an expression. -/
inductive JsOutcome where
  | thrown (msg : String) : JsOutcome
  | value (v : JsVal) : JsOutcome
deriving DecidableEq

/-- Evaluating a call `n(...)` (also as a constructor, `new n(...)`) of a
global name: unbound names throw a `ReferenceError`, non-callables throw a
`TypeError`, a throwing stub throws its error, and only an actual callable
runs. -/
def callGlobal (env : GlobalEnv) (n : String) : JsOutcome :=
  match env n with
  | none => .thrown ("ReferenceError: " ++ n ++ " is not defined")
  | some .undef => .thrown ("TypeError: " ++ n ++ " is not a function")
  | some (.dataVal _) => .thrown ("TypeError: " ++ n ++ " is not a function")
  | some (.throwingFn msg) => .thrown msg
  | some (.someFn tag) => .value (.dataVal ("invoked:" ++ tag))

/-- Evaluating a bare reference to a global name: unbound names throw a
`ReferenceError`, otherwise the bound value results. -/
def refGlobal (env : GlobalEnv) (n : String) : JsOutcome :=
  match env n with
  | none => .thrown ("ReferenceError: " ++ n ++ " is not defined")
  | some v => .value v

end Acp

namespace Acp

/-! ## Helper lemmas -/

theorem decodeList_map_id (f : α → Json) (g : Json → Option α)
    (h : ∀ a, g (f a) = some a) (xs : List α) :
    decodeList g (xs.map f) = some xs := by
  induction xs with
  | nil => rfl
  | cons a as ih => simp [decodeList, h a, ih]

theorem Json.asStr_str (s : String) : Json.asStr (.str s) = some s := rfl

theorem Json.asArr_arr (xs : List Json) : Json.asArr (.arr xs) = some xs := rfl

theorem Json.asU32_num (n : Nat) (h : n < 4294967296) :
    Json.asU32 (.num n) = some n := by
  simp [Json.asU32, h]

theorem tokenEntry_fromJson_toJson (t : TokenEntry) :
    TokenEntry.fromJson t.toJson = some t := rfl

theorem pluginEntry_fromJson_toJson (p : PluginEntry) :
    PluginEntry.fromJson p.toJson = some p := by
  have h1 : p.toJson.getField "name" = some (.str p.name) := rfl
  have h2 : p.toJson.getField "hosts" = some (.arr (p.hosts.map .str)) := rfl
  have h3 : p.toJson.getField "credential_schema" =
      some (.arr (p.credential_schema.map .str)) := rfl
  rw [PluginEntry.fromJson, h1, h2, h3]
  simp only [Option.some_bind, Json.asStr_str, Json.asArr_arr,
    decodeList_map_id Json.str Json.asStr Json.asStr_str]

theorem credentialEntry_fromJson_toJson (c : CredentialEntry) :
    CredentialEntry.fromJson c.toJson = some c := rfl

theorem registryData_fromJson_toJson (d : RegistryData)
    (hv : d.version < 4294967296) :
    RegistryData.fromJson d.toJson = some d := by
  have h1 : d.toJson.getField "version" = some (.num d.version) := rfl
  have h2 : d.toJson.getField "tokens" =
      some (.arr (d.tokens.map TokenEntry.toJson)) := rfl
  have h3 : d.toJson.getField "plugins" =
      some (.arr (d.plugins.map PluginEntry.toJson)) := rfl
  have h4 : d.toJson.getField "credentials" =
      some (.arr (d.credentials.map CredentialEntry.toJson)) := rfl
  rw [RegistryData.fromJson, h1, h2, h3, h4]
  simp only [Option.some_bind, Json.asArr_arr, Json.asU32_num d.version hv,
    decodeList_map_id TokenEntry.toJson TokenEntry.fromJson
      tokenEntry_fromJson_toJson,
    decodeList_map_id PluginEntry.toJson PluginEntry.fromJson
      pluginEntry_fromJson_toJson,
    decodeList_map_id CredentialEntry.toJson CredentialEntry.fromJson
      credentialEntry_fromJson_toJson]

theorem Store.get_set (st : Store α) (k : String) (v : α) :
    (st.set k v).get k = some v := by
  simp [Store.set, Store.get]

theorem Registry.load_save (st : Store Json) (d : RegistryData)
    (hv : d.version < 4294967296) :
    Registry.load (Registry.save st d) = .ok d := by
  rw [Registry.load, Registry.save, Store.get_set]
  simp only [registryData_fromJson_toJson d hv]

theorem agentToken_fromJson_toJson (t : AgentToken) :
    AgentToken.fromJson t.toJson = some t := rfl

theorem loadCacheMap_go_append (s : CacheState) (es₁ es₂ : List CacheTokenEntry)
    (m : Store AgentToken) :
    TokenCache.loadCacheMap.go s (es₁ ++ es₂) m =
      TokenCache.loadCacheMap.go s es₂ (TokenCache.loadCacheMap.go s es₁ m) := by
  induction es₁ generalizing m with
  | nil => rfl
  | cons e rest ih =>
    simp only [List.cons_append, TokenCache.loadCacheMap.go]
    split
    · exact ih m
    · split
      · exact ih m
      · exact ih _

theorem lowerCode_eq_46 (n : Nat) : lowerCode n = 46 ↔ n = 46 := by
  unfold lowerCode
  split <;> omega

theorem splitLabels_go_ne_nil (l acc : List Nat) : splitLabels.go l acc ≠ [] := by
  induction l generalizing acc with
  | nil => simp [splitLabels.go]
  | cons c rest ih =>
    unfold splitLabels.go
    split
    · simp
    · exact ih _

theorem joinLabels_cons (l : List Nat) (ls : List (List Nat)) (h : ls ≠ []) :
    joinLabels (l :: ls) = l ++ 46 :: joinLabels ls := by
  cases ls with
  | nil => exact absurd rfl h
  | cons a as => rfl

theorem joinLabels_splitLabels_go (l acc : List Nat) :
    joinLabels (splitLabels.go l acc) = acc.reverse ++ l := by
  induction l generalizing acc with
  | nil => simp [splitLabels.go, joinLabels]
  | cons c rest ih =>
    unfold splitLabels.go
    split
    · rename_i hc
      rw [joinLabels_cons _ _ (splitLabels_go_ne_nil rest []), ih []]
      simp [hc]
    · rw [ih (c :: acc)]
      simp

theorem joinLabels_splitLabels (l : List Nat) :
    joinLabels (splitLabels l) = l := by
  unfold splitLabels
  simpa using joinLabels_splitLabels_go l []

theorem splitLabels_go_map_lower (l acc : List Nat) :
    splitLabels.go (l.map lowerCode) (acc.map lowerCode) =
      (splitLabels.go l acc).map (List.map lowerCode) := by
  induction l generalizing acc with
  | nil => simp [splitLabels.go]
  | cons c rest ih =>
    by_cases hc : c = 46
    · subst hc
      have h46 : lowerCode 46 = 46 := rfl
      simp only [List.map_cons, h46, splitLabels.go, if_pos rfl]
      have := ih ([] : List Nat)
      simp only [List.map_nil] at this
      simp [this, List.map_reverse]
    · have hlc : ¬ lowerCode c = 46 := fun h => hc ((lowerCode_eq_46 c).mp h)
      simp only [List.map_cons, splitLabels.go, if_neg hc, if_neg hlc]
      have := ih (c :: acc)
      simpa using this

theorem splitLabels_map_lower (l : List Nat) :
    splitLabels (l.map lowerCode) = (splitLabels l).map (List.map lowerCode) := by
  unfold splitLabels
  simpa using splitLabels_go_map_lower l []

theorem labelMatches_congr (p a b : List Nat)
    (h : a.map lowerCode = b.map lowerCode) :
    labelMatches p a = labelMatches p b := by
  unfold labelMatches
  by_cases hp : p = [42]
  · have hlen : a.length = b.length := by
      simpa using congrArg List.length h
    cases a <;> cases b <;> simp_all
  · simp only [if_neg hp, h]

theorem zip_all_labelMatches_congr (ps hs₁ hs₂ : List (List Nat))
    (h : hs₁.map (List.map lowerCode) = hs₂.map (List.map lowerCode)) :
    ((ps.zip hs₁).all fun x => labelMatches x.1 x.2) =
      ((ps.zip hs₂).all fun x => labelMatches x.1 x.2) := by
  induction ps generalizing hs₁ hs₂ with
  | nil => rfl
  | cons p ps ih =>
    cases hs₁ with
    | nil =>
      cases hs₂ with
      | nil => rfl
      | cons b bs => simp at h
    | cons a as =>
      cases hs₂ with
      | nil => simp at h
      | cons b bs =>
        simp only [List.map_cons, List.cons.injEq] at h
        simp only [List.zip_cons_cons, List.all_cons,
          labelMatches_congr p a b h.1, ih as bs h.2]

/-- Pattern matching is invariant under changing the host's ASCII case. -/
theorem patternMatches_congr_host (pat h₁ h₂ : String)
    (hmap : (h₁.data.map fun c => lowerCode c.toNat) =
      (h₂.data.map fun c => lowerCode c.toNat)) :
    patternMatches pat h₁ = patternMatches pat h₂ := by
  have hmap' : (h₁.data.map Char.toNat).map lowerCode =
      (h₂.data.map Char.toNat).map lowerCode := by
    simpa [List.map_map, Function.comp] using hmap
  have hsplit : (splitLabels (h₁.data.map Char.toNat)).map (List.map lowerCode) =
      (splitLabels (h₂.data.map Char.toNat)).map (List.map lowerCode) := by
    rw [← splitLabels_map_lower, ← splitLabels_map_lower, hmap']
  have hlen : (splitLabels (h₁.data.map Char.toNat)).length =
      (splitLabels (h₂.data.map Char.toNat)).length := by
    simpa using congrArg List.length hsplit
  unfold patternMatches
  simp only [hlen,
    zip_all_labelMatches_congr (splitLabels (pat.data.map Char.toNat)) _ _ hsplit]

theorem zip_all_labelMatches_literal (ps hs : List (List Nat))
    (hnostar : ∀ p ∈ ps, p ≠ [42]) (hlen : ps.length = hs.length) :
    (((ps.zip hs).all fun x => labelMatches x.1 x.2) = true ↔
      ps.map (List.map lowerCode) = hs.map (List.map lowerCode)) := by
  induction ps generalizing hs with
  | nil =>
    cases hs with
    | nil => simp
    | cons b bs => simp at hlen
  | cons p ps ih =>
    cases hs with
    | nil => simp at hlen
    | cons b bs =>
      have hp : p ≠ [42] := hnostar p (List.mem_cons_self p ps)
      have hrec := ih bs (fun q hq => hnostar q (List.mem_cons_of_mem p hq))
        (by simpa using hlen)
      have hhead : (labelMatches p b = true) ↔
          (p.map lowerCode = b.map lowerCode) := by
        unfold labelMatches
        simp [if_neg hp]
      simp only [List.zip_cons_cons, List.all_cons, Bool.and_eq_true,
        List.map_cons, List.cons.injEq]
      rw [hhead, hrec]

/-- A pattern with no `*` label matches exactly the hosts equal to it up to
ASCII case. -/
theorem patternMatches_literal (pat host : String)
    (hnostar : ∀ l ∈ splitLabels (pat.data.map Char.toNat), l ≠ [42]) :
    (patternMatches pat host = true ↔
      (pat.data.map fun c => lowerCode c.toNat) =
        (host.data.map fun c => lowerCode c.toNat)) := by
  have hpm : (pat.data.map fun c => lowerCode c.toNat) =
      (pat.data.map Char.toNat).map lowerCode := by
    simp [List.map_map, Function.comp]
  have hhm : (host.data.map fun c => lowerCode c.toNat) =
      (host.data.map Char.toNat).map lowerCode := by
    simp [List.map_map, Function.comp]
  rw [hpm, hhm]
  unfold patternMatches
  simp only [Bool.and_eq_true, beq_iff_eq]
  constructor
  · rintro ⟨hlen, hall⟩
    have hmaps := (zip_all_labelMatches_literal _ _ hnostar hlen).mp hall
    have h1 : (pat.data.map Char.toNat).map lowerCode =
        joinLabels ((splitLabels (pat.data.map Char.toNat)).map
          (List.map lowerCode)) := by
      rw [← splitLabels_map_lower, joinLabels_splitLabels]
    have h2 : (host.data.map Char.toNat).map lowerCode =
        joinLabels ((splitLabels (host.data.map Char.toNat)).map
          (List.map lowerCode)) := by
      rw [← splitLabels_map_lower, joinLabels_splitLabels]
    rw [h1, h2, hmaps]
  · intro heq
    have hsplit : (splitLabels (pat.data.map Char.toNat)).map (List.map lowerCode) =
        (splitLabels (host.data.map Char.toNat)).map (List.map lowerCode) := by
      rw [← splitLabels_map_lower, ← splitLabels_map_lower, heq]
    have hlen : (splitLabels (pat.data.map Char.toNat)).length =
        (splitLabels (host.data.map Char.toNat)).length := by
      simpa using congrArg List.length hsplit
    exact ⟨hlen, (zip_all_labelMatches_literal _ _ hnostar hlen).mpr hsplit⟩

/-- The matcher returns the first loaded plugin admitting the host when every
registry row's code is present and loads. -/
theorem find_matching_plugin_forall2 (host : String)
    (store : Store (List Nat)) (loader : PluginLoader)
    (codeOf : PluginEntry → List Nat) (entries : List PluginEntry)
    (plugins : List ACPPlugin)
    (h : List.Forall₂ (fun e p =>
      store.get ("plugin:" ++ e.name) = some (codeOf e) ∧
      loader e.name (codeOf e) = .ok p) entries plugins) :
    find_matching_plugin host store loader entries =
      plugins.find? (fun p => p.matches_host host) := by
  induction h with
  | nil => rfl
  | cons hep _ ih =>
    rename_i e p es ps _
    rw [find_matching_plugin]
    simp only [hep.1, hep.2, List.find?]
    cases hm : p.matches_host host with
    | true => simp [hm]
    | false => simp [hm, ih]

end Acp

/-- C1 (code bug): `TokenCache::create` does not persist the token at
`token:{token_value}` and `TokenCache::delete` is not keyed by the token
value.  Evaluating `create` on a fresh cache with a concrete generated token
shows the serialized token is stored at `token:{id}` (the internal
identifier), nothing is stored at `token:{token_value}`, `delete(token_value)`
reports `false` although the token exists, and `delete(id)` reports `true`.
This contradicts the spec and the crate's own `registry.rs`, whose migration
doc calls `token:{id}` the old format to be migrated away from and whose
`TokenEntry` type (`token_value`-keyed) the rows built by `token_cache.rs` do
not even type-check against. -/
theorem C1_create_delete_keyed_by_internal_id :
    ((Acp.TokenCache.create ⟨[], [], none⟩
        ⟨"7f9c2ba4-e88f-11eb", "acp_mJ3k9QvTbXw2", "test-agent", "acp_mJ3k",
         "2024-01-15T10:30:00Z"⟩).store.get
      ("token:" ++ "7f9c2ba4-e88f-11eb") =
      some (Acp.AgentToken.toJson
        ⟨"7f9c2ba4-e88f-11eb", "acp_mJ3k9QvTbXw2", "test-agent", "acp_mJ3k",
         "2024-01-15T10:30:00Z"⟩)) ∧
    ((Acp.TokenCache.create ⟨[], [], none⟩
        ⟨"7f9c2ba4-e88f-11eb", "acp_mJ3k9QvTbXw2", "test-agent", "acp_mJ3k",
         "2024-01-15T10:30:00Z"⟩).store.get
      ("token:" ++ "acp_mJ3k9QvTbXw2") = none) ∧
    ((Acp.TokenCache.delete
        (Acp.TokenCache.create ⟨[], [], none⟩
          ⟨"7f9c2ba4-e88f-11eb", "acp_mJ3k9QvTbXw2", "test-agent", "acp_mJ3k",
           "2024-01-15T10:30:00Z"⟩) "acp_mJ3k9QvTbXw2").2 = false) ∧
    ((Acp.TokenCache.delete
        (Acp.TokenCache.create ⟨[], [], none⟩
          ⟨"7f9c2ba4-e88f-11eb", "acp_mJ3k9QvTbXw2", "test-agent", "acp_mJ3k",
           "2024-01-15T10:30:00Z"⟩) "7f9c2ba4-e88f-11eb").2 = true) :=
  ⟨rfl, rfl, rfl, rfl⟩

/-- C2: after `TokenCache::create` returns a token `t` (no other write, no
explicit `invalidate`), `TokenCache::get_by_token(t.token_value)` returns
`Some(t)` — for every prior cache state: the write invalidates the cache, the
reload reads the just-written store entry through the appended registry row,
and the map keys the fresh token last, so the lookup by token value finds
exactly `t`. -/
theorem C2_create_then_get_by_token (s : Acp.CacheState) (t : Acp.AgentToken) :
    (Acp.TokenCache.get_by_token (Acp.TokenCache.create s t) t.token).1 =
      some t := by
  unfold Acp.TokenCache.get_by_token Acp.TokenCache.create
  simp only
  unfold Acp.TokenCache.loadCacheMap
  rw [Acp.loadCacheMap_go_append]
  simp only [Acp.TokenCache.loadCacheMap.go]
  rw [show ("token:" ++ t.toCacheEntry.id) = ("token:" ++ t.id) from rfl,
    Acp.Store.get_set]
  simp only [Acp.agentToken_fromJson_toJson]
  exact Acp.Store.get_set _ _ _

/-- C3: Registry round-trip.  For every registry document `d` and every store
state, `Registry::load` after `Registry::save(d)` (same store, no intervening
writes) yields exactly `d`; since equality of `RegistryData` is equality of
its (ordered) `tokens`, `plugins` and `credentials` lists, the stored order of
all three collections is preserved exactly.  The hypothesis records that
`version` fits in `u32`, the Rust field type. -/
theorem C3_registry_round_trip (st : Acp.Store Acp.Json) (d : Acp.RegistryData)
    (hv : d.version < 4294967296) :
    Acp.Registry.load (Acp.Registry.save st d) = .ok d :=
  Acp.Registry.load_save st d hv

/-- Witness for C3 at a concrete document with one entry in each collection. -/
theorem C3_registry_round_trip_witness :
    Acp.Registry.load
      (Acp.Registry.save []
        { version := 1,
          tokens := [⟨"acp_abc123", "test-token", "2024-01-15T10:30:00Z"⟩],
          plugins := [⟨"exa", ["api.exa.ai"], ["api_key"]⟩],
          credentials := [⟨"exa", "api_key"⟩] }) =
      .ok { version := 1,
            tokens := [⟨"acp_abc123", "test-token", "2024-01-15T10:30:00Z"⟩],
            plugins := [⟨"exa", ["api.exa.ai"], ["api_key"]⟩],
            credentials := [⟨"exa", "api_key"⟩] } :=
  C3_registry_round_trip _ _ (by decide)

/-- C4: `Registry::remove_token(v)` drops every token row whose `token_value`
equals `v` and leaves the other rows unchanged in their original order
(the surviving rows form a sublist of the originals); `plugins` and
`credentials` are untouched. -/
theorem C4_remove_token_filters (st : Acp.Store Acp.Json) (v : String)
    (d : Acp.RegistryData) (hload : Acp.Registry.load st = .ok d)
    (hv : d.version < 4294967296) :
    ∃ st' d', Acp.Registry.remove_token st v = .ok st' ∧
      Acp.Registry.load st' = .ok d' ∧
      d'.tokens = d.tokens.filter (fun t => t.token_value ≠ v) ∧
      (∀ t ∈ d'.tokens, t.token_value ≠ v) ∧
      (∀ t ∈ d.tokens, t.token_value ≠ v → t ∈ d'.tokens) ∧
      d'.tokens.Sublist d.tokens ∧
      d'.plugins = d.plugins ∧ d'.credentials = d.credentials := by
  refine ⟨Acp.Registry.save st
      { d with tokens := d.tokens.filter (fun t => t.token_value ≠ v) },
    { d with tokens := d.tokens.filter (fun t => t.token_value ≠ v) },
    ?_, ?_, rfl, ?_, ?_, ?_, rfl, rfl⟩
  · rw [Acp.Registry.remove_token, hload]
  · exact Acp.Registry.load_save st _ hv
  · intro t ht
    have := List.of_mem_filter ht
    simpa using this
  · intro t ht hne
    exact List.mem_filter.mpr ⟨ht, by simpa using hne⟩
  · exact List.filter_sublist _

/-- Witness for C4: a registry with three tokens, two of which carry the
removed value `acp_a` (a duplicate); both are dropped, `acp_b` survives. -/
theorem C4_remove_token_filters_witness :
    ∃ st' d',
      Acp.Registry.remove_token
        (Acp.Registry.save []
          { version := 1,
            tokens := [⟨"acp_a", "t1", "2024-01-01T00:00:00Z"⟩,
                       ⟨"acp_b", "t2", "2024-01-02T00:00:00Z"⟩,
                       ⟨"acp_a", "t3", "2024-01-03T00:00:00Z"⟩],
            plugins := [], credentials := [] }) "acp_a" = .ok st' ∧
      Acp.Registry.load st' = .ok d' ∧
      d'.tokens =
        ({ version := 1,
           tokens := [⟨"acp_a", "t1", "2024-01-01T00:00:00Z"⟩,
                      ⟨"acp_b", "t2", "2024-01-02T00:00:00Z"⟩,
                      ⟨"acp_a", "t3", "2024-01-03T00:00:00Z"⟩],
           plugins := [], credentials := [] } :
          Acp.RegistryData).tokens.filter (fun t => t.token_value ≠ "acp_a") ∧
      (∀ t ∈ d'.tokens, t.token_value ≠ "acp_a") ∧
      (∀ t ∈ ({ version := 1,
                tokens := [⟨"acp_a", "t1", "2024-01-01T00:00:00Z"⟩,
                           ⟨"acp_b", "t2", "2024-01-02T00:00:00Z"⟩,
                           ⟨"acp_a", "t3", "2024-01-03T00:00:00Z"⟩],
                plugins := [], credentials := [] } :
              Acp.RegistryData).tokens,
        t.token_value ≠ "acp_a" → t ∈ d'.tokens) ∧
      d'.tokens.Sublist
        ({ version := 1,
           tokens := [⟨"acp_a", "t1", "2024-01-01T00:00:00Z"⟩,
                      ⟨"acp_b", "t2", "2024-01-02T00:00:00Z"⟩,
                      ⟨"acp_a", "t3", "2024-01-03T00:00:00Z"⟩],
           plugins := [], credentials := [] } :
          Acp.RegistryData).tokens ∧
      d'.plugins =
        ({ version := 1,
           tokens := [⟨"acp_a", "t1", "2024-01-01T00:00:00Z"⟩,
                      ⟨"acp_b", "t2", "2024-01-02T00:00:00Z"⟩,
                      ⟨"acp_a", "t3", "2024-01-03T00:00:00Z"⟩],
           plugins := [], credentials := [] } :
          Acp.RegistryData).plugins ∧
      d'.credentials =
        ({ version := 1,
           tokens := [⟨"acp_a", "t1", "2024-01-01T00:00:00Z"⟩,
                      ⟨"acp_b", "t2", "2024-01-02T00:00:00Z"⟩,
                      ⟨"acp_a", "t3", "2024-01-03T00:00:00Z"⟩],
           plugins := [], credentials := [] } :
          Acp.RegistryData).credentials :=
  C4_remove_token_filters _ "acp_a" _ (by rfl) (by decide)

namespace Acp

theorem jsArrayBytes_shift (o : Option Int) (elems : List (Option Int))
    (idxs : List Nat) :
    jsArrayBytes (o :: elems) (idxs.map Nat.succ) = jsArrayBytes elems idxs := by
  induction idxs with
  | nil => rfl
  | cons i rest ih =>
    simp only [List.map_cons, jsArrayBytes, List.getD_cons_succ, ih]

theorem jsArrayBytes_map_some (vals : List Int) :
    jsArrayBytes (vals.map some) (List.range vals.length) =
      .ok (vals.map satU8) := by
  induction vals with
  | nil => rfl
  | cons v vs ih =>
    simp only [List.map_cons, List.length_cons, List.range_succ_eq_map,
      jsArrayBytes, List.getD_cons_zero, jsArrayBytes_shift, ih]

theorem jsArrayBytes_error_of_missing (elems : List (Option Int))
    (idxs : List Nat) (h : ∃ i ∈ idxs, elems.getD i none = none) :
    jsArrayBytes elems idxs = .error "Array element must be number" := by
  induction idxs with
  | nil => simp at h
  | cons i rest ih =>
    obtain ⟨j, hj, hnone⟩ := h
    rcases List.mem_cons.mp hj with rfl | hjr
    · simp only [jsArrayBytes, hnone]
    · cases hgd : elems.getD i none with
      | none => simp only [jsArrayBytes, hgd]
      | some v => simp only [jsArrayBytes, hgd, ih ⟨j, hjr, hnone⟩]

theorem satU8_clamp (n : Int) : (satU8 n : Int) = max 0 (min 255 n) := by
  unfold satU8
  split
  · omega
  · split
    · omega
    · omega

theorem GlobalEnv.setG_ne (env : GlobalEnv) (n : String) (v : JsVal)
    (m : String) (h : m ≠ n) : env.setG n v m = env m := by
  simp [GlobalEnv.setG, h]

theorem GlobalEnv.neutralize_other (env : GlobalEnv) (n' msg n : String)
    (h : n ≠ n') : env.neutralize n' msg n = env n := by
  unfold GlobalEnv.neutralize
  split
  · exact GlobalEnv.setG_ne env n' _ n h
  · rfl

theorem GlobalEnv.neutralize_self (env : GlobalEnv) (n msg : String) :
    env.neutralize n msg n =
      if env.defined n then some (.throwingFn msg) else env n := by
  unfold GlobalEnv.neutralize
  split
  · simp [GlobalEnv.setG]
  · rfl

theorem GlobalEnv.defined_congr (e₁ e₂ : GlobalEnv) (n : String)
    (h : e₁ n = e₂ n) : e₁.defined n = e₂.defined n := by
  unfold GlobalEnv.defined
  rw [h]

theorem GlobalEnv.defined_false (env : GlobalEnv) (n : String)
    (h : env.defined n = false) : env n = none ∨ env n = some .undef := by
  unfold GlobalEnv.defined at h
  cases he : env n with
  | none => exact Or.inl rfl
  | some v =>
    cases v with
    | undef => exact Or.inr rfl
    | throwingFn m => rw [he] at h; simp at h
    | someFn t => rw [he] at h; simp at h
    | dataVal t => rw [he] at h; simp at h

theorem apply_sandbox_lookup_fetch (env : GlobalEnv) :
    apply_sandbox env "fetch" =
      if env.defined "fetch" then
        some (.throwingFn "fetch is not allowed in plugin sandbox")
      else env "fetch" := by
  unfold apply_sandbox
  split
  · rw [GlobalEnv.setG_ne _ _ _ _ (by decide),
      GlobalEnv.neutralize_other _ _ _ _ (by decide),
      GlobalEnv.neutralize_other _ _ _ _ (by decide),
      GlobalEnv.neutralize_other _ _ _ _ (by decide),
      GlobalEnv.neutralize_self]
  · rw [GlobalEnv.neutralize_other _ _ _ _ (by decide),
      GlobalEnv.neutralize_other _ _ _ _ (by decide),
      GlobalEnv.neutralize_other _ _ _ _ (by decide),
      GlobalEnv.neutralize_self]

theorem apply_sandbox_lookup_eval (env : GlobalEnv) :
    apply_sandbox env "eval" =
      if env.defined "eval" then
        some (.throwingFn "eval is not allowed in plugin sandbox")
      else env "eval" := by
  unfold apply_sandbox
  have h2 : (env.neutralize "fetch" "fetch is not allowed in plugin sandbox"
      |>.neutralize "XMLHttpRequest"
        "XMLHttpRequest is not allowed in plugin sandbox") "eval" = env "eval" := by
    rw [GlobalEnv.neutralize_other _ _ _ _ (by decide),
      GlobalEnv.neutralize_other _ _ _ _ (by decide)]
  have hd : (env.neutralize "fetch" "fetch is not allowed in plugin sandbox"
      |>.neutralize "XMLHttpRequest"
        "XMLHttpRequest is not allowed in plugin sandbox").defined "eval" =
      env.defined "eval" := GlobalEnv.defined_congr _ _ _ h2
  split
  · rw [GlobalEnv.setG_ne _ _ _ _ (by decide),
      GlobalEnv.neutralize_other _ _ _ _ (by decide),
      GlobalEnv.neutralize_self, hd, h2]
  · rw [GlobalEnv.neutralize_other _ _ _ _ (by decide),
      GlobalEnv.neutralize_self, hd, h2]

theorem apply_sandbox_lookup_function (env : GlobalEnv) :
    apply_sandbox env "Function" =
      if env.defined "Function" then
        some (.throwingFn "Function constructor is not allowed in plugin sandbox")
      else env "Function" := by
  unfold apply_sandbox
  have h3 : (env.neutralize "fetch" "fetch is not allowed in plugin sandbox"
      |>.neutralize "XMLHttpRequest"
        "XMLHttpRequest is not allowed in plugin sandbox"
      |>.neutralize "eval" "eval is not allowed in plugin sandbox")
        "Function" = env "Function" := by
    rw [GlobalEnv.neutralize_other _ _ _ _ (by decide),
      GlobalEnv.neutralize_other _ _ _ _ (by decide),
      GlobalEnv.neutralize_other _ _ _ _ (by decide)]
  have hd := GlobalEnv.defined_congr _ _ "Function" h3
  split
  · rw [GlobalEnv.setG_ne _ _ _ _ (by decide), GlobalEnv.neutralize_self, hd, h3]
  · rw [GlobalEnv.neutralize_self, hd, h3]

theorem apply_sandbox_lookup_wasm (env : GlobalEnv) :
    apply_sandbox env "WebAssembly" =
      if env.defined "WebAssembly" then some .undef
      else env "WebAssembly" := by
  unfold apply_sandbox
  have h4 : (env.neutralize "fetch" "fetch is not allowed in plugin sandbox"
      |>.neutralize "XMLHttpRequest"
        "XMLHttpRequest is not allowed in plugin sandbox"
      |>.neutralize "eval" "eval is not allowed in plugin sandbox"
      |>.neutralize "Function"
        "Function constructor is not allowed in plugin sandbox")
        "WebAssembly" = env "WebAssembly" := by
    rw [GlobalEnv.neutralize_other _ _ _ _ (by decide),
      GlobalEnv.neutralize_other _ _ _ _ (by decide),
      GlobalEnv.neutralize_other _ _ _ _ (by decide),
      GlobalEnv.neutralize_other _ _ _ _ (by decide)]
  have hd := GlobalEnv.defined_congr _ _ "WebAssembly" h4
  rw [hd]
  split
  · simp [GlobalEnv.setG]
  · exact h4

end Acp

/-- C5: `find_matching_plugin` returns the first plugin in registry stored
order whose match patterns admit the host (and `None` when no plugin's
patterns admit it — `List.find?` yields `none` then), where a pattern label
equal to `*` matches exactly one non-empty DNS label
(`*.s3.amazonaws.com` matches `bucket.s3.amazonaws.com` but not
`a.b.s3.amazonaws.com`), matching is ASCII case-insensitive (invariant under
changing the host's ASCII case), and an exact literal pattern matches only
that host (up to ASCII case).  The first conjunct assumes every registry
row's code is present and loads, which is what lets the row's patterns be
consulted at all. -/
theorem C5_find_matching_plugin_first_match :
    (∀ (host : String) (store : Acp.Store (List Nat))
       (loader : Acp.PluginLoader) (codeOf : Acp.PluginEntry → List Nat)
       (entries : List Acp.PluginEntry) (plugins : List Acp.ACPPlugin),
       List.Forall₂ (fun e p =>
         store.get ("plugin:" ++ e.name) = some (codeOf e) ∧
         loader e.name (codeOf e) = .ok p) entries plugins →
       Acp.find_matching_plugin host store loader entries =
         plugins.find? (fun p => p.matches_host host)) ∧
    Acp.patternMatches "*.s3.amazonaws.com" "bucket.s3.amazonaws.com" = true ∧
    Acp.patternMatches "*.s3.amazonaws.com" "a.b.s3.amazonaws.com" = false ∧
    (∀ (pat h₁ h₂ : String),
       (h₁.data.map fun c => Acp.lowerCode c.toNat) =
         (h₂.data.map fun c => Acp.lowerCode c.toNat) →
       Acp.patternMatches pat h₁ = Acp.patternMatches pat h₂) ∧
    (∀ (pat host : String),
       (∀ l ∈ Acp.splitLabels (pat.data.map Char.toNat), l ≠ [42]) →
       (Acp.patternMatches pat host = true ↔
         (pat.data.map fun c => Acp.lowerCode c.toNat) =
           (host.data.map fun c => Acp.lowerCode c.toNat))) := by
  refine ⟨?_, by decide, by decide, ?_, ?_⟩
  · intro host store loader codeOf entries plugins h
    exact Acp.find_matching_plugin_forall2 host store loader codeOf entries
      plugins h
  · intro pat h₁ h₂ hmap
    exact Acp.patternMatches_congr_host pat h₁ h₂ hmap
  · intro pat host hnostar
    exact Acp.patternMatches_literal pat host hnostar

/-- Witness for C5: two registered plugins whose code is present and loads;
the matcher run on `bucket.s3.amazonaws.com` equals the first-match search,
with the hypotheses discharged at this concrete input. -/
theorem C5_find_matching_plugin_first_match_witness :
    Acp.find_matching_plugin "bucket.s3.amazonaws.com"
      [("plugin:other", [49]), ("plugin:s3", [50])]
      (fun n _ =>
        if n = "other" then .ok ⟨"other", ["api.other.com"], []⟩
        else .ok ⟨"s3", ["*.s3.amazonaws.com"], []⟩)
      [⟨"other", ["api.other.com"], []⟩, ⟨"s3", ["*.s3.amazonaws.com"], []⟩] =
      List.find? (fun p => p.matches_host "bucket.s3.amazonaws.com")
        [⟨"other", ["api.other.com"], []⟩, ⟨"s3", ["*.s3.amazonaws.com"], []⟩] :=
  C5_find_matching_plugin_first_match.1 "bucket.s3.amazonaws.com"
    [("plugin:other", [49]), ("plugin:s3", [50])]
    (fun n _ =>
      if n = "other" then .ok ⟨"other", ["api.other.com"], []⟩
      else .ok ⟨"s3", ["*.s3.amazonaws.com"], []⟩)
    (fun e => if e.name = "other" then [49] else [50])
    [⟨"other", ["api.other.com"], []⟩, ⟨"s3", ["*.s3.amazonaws.com"], []⟩]
    [⟨"other", ["api.other.com"], []⟩, ⟨"s3", ["*.s3.amazonaws.com"], []⟩]
    (List.Forall₂.cons (by constructor <;> rfl)
      (List.Forall₂.cons (by constructor <;> rfl) List.Forall₂.nil))

/-- C6: when the HTTP parse succeeds and either no plugin matches the host,
or a plugin matches but the credential mapping built for it is empty,
`parse_and_transform` returns the original request bytes themselves
(pass-through), not a re-serialization of the parsed request — the serializer
parameter is never consulted on these paths. -/
theorem C6_passthrough_returns_original_bytes
    (parse : List Nat → Acp.AcpResult Acp.HttpRequest)
    (transform : Acp.ACPPlugin → Acp.HttpRequest → Acp.ACPCredentials →
      Acp.AcpResult Acp.HttpRequest)
    (serialize : Acp.HttpRequest → Acp.AcpResult (List Nat))
    (loader : Acp.PluginLoader) (bytes : List Nat) (host : String)
    (plugins : List Acp.PluginEntry) (creds : List Acp.CredentialEntry)
    (store : Acp.Store (List Nat)) (req : Acp.HttpRequest)
    (hp : parse bytes = .ok req) :
    (Acp.find_matching_plugin host store loader plugins = none →
      Acp.parse_and_transform parse transform serialize loader bytes host
        plugins creds store = .ok bytes) ∧
    (∀ (p : Acp.ACPPlugin) (c : Acp.ACPCredentials),
      Acp.find_matching_plugin host store loader plugins = some p →
      Acp.load_plugin_credentials p.name creds store = .ok c →
      c.credentials = [] →
      Acp.parse_and_transform parse transform serialize loader bytes host
        plugins creds store = .ok bytes) := by
  constructor
  · intro hm
    simp [Acp.parse_and_transform, hp, hm]
  · intro p c hm hc hemp
    simp [Acp.parse_and_transform, hp, hm, hc, hemp]

/-- Witness for C6: an empty plugin registry (no match) passes the concrete
request bytes through unchanged. -/
theorem C6_passthrough_returns_original_bytes_witness :
    Acp.parse_and_transform
      (fun _ => .ok ⟨"GET", "http://api.example.com/", [], []⟩)
      (fun _ r _ => .ok r) (fun r => .ok r.body) (fun _ _ => .error "unused")
      [71, 69, 84, 32, 47] "api.example.com" [] [] [] =
      .ok [71, 69, 84, 32, 47] :=
  (C6_passthrough_returns_original_bytes
    (fun _ => .ok ⟨"GET", "http://api.example.com/", [], []⟩)
    (fun _ r _ => .ok r) (fun r => .ok r.body) (fun _ _ => .error "unused")
    [71, 69, 84, 32, 47] "api.example.com" [] [] []
    ⟨"GET", "http://api.example.com/", [], []⟩ rfl).1 rfl

/-- C7 counterexample: the claim says a stored credential value that is not
valid UTF-8 is skipped and the enumeration still succeeds; in fact
`load_plugin_credentials` fails the whole operation with a storage error on
the first such value (byte `0xFF` here). -/
theorem C7_invalid_utf8_credential_fails_whole_operation :
    Acp.load_plugin_credentials "exa" [⟨"exa", "api_key"⟩]
      [("credential:exa:api_key", [255])] =
      .error (.storage "Invalid UTF-8 in credential credential:exa:api_key") :=
  rfl

/-- C7 amended: during the token-cache enumeration a token that fails to
deserialize is skipped and the load still succeeds over the remaining entries
(first conjunct: dropping such a registry row does not change the loaded
map); during credential loading an absent value is skipped (third conjunct),
but a stored credential value that is not valid UTF-8 fails the whole
operation with a storage error (second conjunct). -/
theorem C7_amended_token_skip_credential_fail :
    (∀ (s : Acp.CacheState) (e : Acp.CacheTokenEntry) (j : Acp.Json)
       (es₁ es₂ : List Acp.CacheTokenEntry) (m : Acp.Store Acp.AgentToken),
       s.store.get ("token:" ++ e.id) = some j →
       Acp.AgentToken.fromJson j = none →
       Acp.TokenCache.loadCacheMap.go s (es₁ ++ e :: es₂) m =
         Acp.TokenCache.loadCacheMap.go s (es₁ ++ es₂) m) ∧
    (∀ (pn : String) (c : Acp.CredentialEntry)
       (rest : List Acp.CredentialEntry) (store : Acp.Store (List Nat))
       (acc : Acp.ACPCredentials) (bytes : List Nat),
       store.get ("credential:" ++ pn ++ ":" ++ c.field) = some bytes →
       Acp.utf8DecodeStr bytes = none →
       Acp.load_plugin_credentials.go pn store (c :: rest) acc =
         .error (.storage ("Invalid UTF-8 in credential " ++ "credential:" ++
           pn ++ ":" ++ c.field))) ∧
    (∀ (pn : String) (c : Acp.CredentialEntry)
       (rest : List Acp.CredentialEntry) (store : Acp.Store (List Nat))
       (acc : Acp.ACPCredentials),
       store.get ("credential:" ++ pn ++ ":" ++ c.field) = none →
       Acp.load_plugin_credentials.go pn store (c :: rest) acc =
         Acp.load_plugin_credentials.go pn store rest acc) := by
  refine ⟨?_, ?_, ?_⟩
  · intro s e j es₁ es₂ m hget hfrom
    rw [Acp.loadCacheMap_go_append, Acp.loadCacheMap_go_append]
    simp only [Acp.TokenCache.loadCacheMap.go, hget, hfrom]
  · intro pn c rest store acc bytes hget hdec
    simp only [Acp.load_plugin_credentials.go, hget, hdec]
  · intro pn c rest store acc hget
    simp only [Acp.load_plugin_credentials.go, hget]

/-- Witness for C7's amended statement: a registry row whose stored token
JSON does not deserialize is dropped from the cache load; a non-UTF-8
credential value errors; an absent credential value is skipped. -/
theorem C7_amended_token_skip_credential_fail_witness :
    (Acp.TokenCache.loadCacheMap.go
        ⟨[("token:bad", Acp.Json.null)], [⟨"bad", "n", "c", "p"⟩], none⟩
        ([] ++ ⟨"bad", "n", "c", "p"⟩ :: []) [] =
      Acp.TokenCache.loadCacheMap.go
        ⟨[("token:bad", Acp.Json.null)], [⟨"bad", "n", "c", "p"⟩], none⟩
        ([] ++ []) []) ∧
    (Acp.load_plugin_credentials.go "exa" [("credential:exa:api_key", [255])]
        [⟨"exa", "api_key"⟩] ⟨[]⟩ =
      .error (.storage ("Invalid UTF-8 in credential " ++ "credential:" ++
        "exa" ++ ":" ++ "api_key"))) ∧
    (Acp.load_plugin_credentials.go "exa" [] [⟨"exa", "api_key"⟩] ⟨[]⟩ =
      Acp.load_plugin_credentials.go "exa" [] [] ⟨[]⟩) :=
  ⟨C7_amended_token_skip_credential_fail.1
      ⟨[("token:bad", Acp.Json.null)], [⟨"bad", "n", "c", "p"⟩], none⟩
      ⟨"bad", "n", "c", "p"⟩ Acp.Json.null [] [] [] rfl rfl,
    C7_amended_token_skip_credential_fail.2.1 "exa" ⟨"exa", "api_key"⟩ []
      [("credential:exa:api_key", [255])] ⟨[]⟩ [255] rfl rfl,
    C7_amended_token_skip_credential_fail.2.2 "exa" ⟨"exa", "api_key"⟩ []
      [] ⟨[]⟩ rfl⟩

/-- C8 counterexample: the claim says an array-like numeric entry is reduced
modulo 256 (300 becomes 44); in fact the `as u8` cast saturates, so the
array-like `[300]` converts to `[255]`, not `[300 % 256] = [44]`. -/
theorem C8_saturates_not_modulo :
    Acp.js_value_to_bytes (.jobj (some 1) [some 300]) = .ok [255] ∧
    Acp.js_value_to_bytes (.jobj (some 1) [some 300]) ≠
      .ok [(300 : Nat) % 256] := by
  refine ⟨rfl, ?_⟩
  intro h
  rw [show Acp.js_value_to_bytes (.jobj (some 1) [some 300]) = .ok [255]
    from rfl] at h
  simp at h

/-- C8 amended: a string converts to its UTF-8 bytes; an array-like object
with a numeric `length` and all-present numeric entries converts element-wise
with each entry clamped by the saturating `as u8` cast to `0..=255`
(`max 0 (min 255 n)`); an in-range absent or non-numeric entry is a type
error, as are a missing `length` and any non-string non-object value. -/
theorem C8_amended_conversion :
    (∀ s : String, Acp.js_value_to_bytes (.jstr s) = .ok (Acp.utf8Encode s)) ∧
    (∀ vals : List Int,
      Acp.js_value_to_bytes
        (.jobj (some (vals.length : Int)) (vals.map some)) =
        .ok (vals.map Acp.satU8)) ∧
    (∀ n : Int, (Acp.satU8 n : Int) = max 0 (min 255 n)) ∧
    (∀ (len : Int) (elems : List (Option Int)),
      (∃ i, i < Acp.satUsize len ∧ elems.getD i none = none) →
      Acp.js_value_to_bytes (.jobj (some len) elems) =
        .error "Array element must be number") ∧
    (∀ elems, Acp.js_value_to_bytes (.jobj none elems) =
      .error "Expected array-like object with length property") ∧
    Acp.js_value_to_bytes .jother =
      .error "Expected string or array-like object" := by
  refine ⟨fun s => rfl, ?_, Acp.satU8_clamp, ?_, fun elems => rfl, rfl⟩
  · intro vals
    show Acp.jsArrayBytes (vals.map some)
      (List.range (Acp.satUsize (vals.length : Int))) = .ok (vals.map Acp.satU8)
    rw [show Acp.satUsize (vals.length : Int) = vals.length from by
      unfold Acp.satUsize
      split <;> omega]
    exact Acp.jsArrayBytes_map_some vals
  · intro len elems ⟨i, hi, hnone⟩
    show Acp.jsArrayBytes elems (List.range (Acp.satUsize len)) = _
    exact Acp.jsArrayBytes_error_of_missing elems _
      ⟨i, List.mem_range.mpr hi, hnone⟩

/-- Witness for C8's amended statement: `[10, 300, -5]` converts to
`[10, 255, 0]`, and an array-like with a hole is a type error. -/
theorem C8_amended_conversion_witness :
    Acp.js_value_to_bytes
        (.jobj (some (([10, 300, -5] : List Int).length : Int))
          (([10, 300, -5] : List Int).map some)) =
      .ok (([10, 300, -5] : List Int).map Acp.satU8) ∧
    Acp.js_value_to_bytes (.jobj (some 2) [some 7]) =
      .error "Array element must be number" :=
  ⟨C8_amended_conversion.2.1 [10, 300, -5],
    C8_amended_conversion.2.2.2.1 2 [some 7] ⟨1, by decide, rfl⟩⟩

/-- C9: in a freshly constructed sandbox — whatever the engine's initial
global environment was — a call to `fetch`, a call to `eval`, a plain or
constructor call of `Function`, and any use of `WebAssembly` either raises an
error or yields `undefined`: each of the first three names is either unbound
after `apply_sandbox` (so the call throws a `ReferenceError`), bound to
`undefined` (the call throws a `TypeError`), or rebound to the throwing stub
(the call throws the stub's error), and `WebAssembly` is unbound (reference
throws) or `undefined`.  In particular none of the calls can reach an
original capability, since a call never produces a value. -/
theorem C9_sandbox_neutralizes_dangerous_globals (env : Acp.GlobalEnv) :
    (∃ m, Acp.callGlobal (Acp.apply_sandbox env) "fetch" = .thrown m) ∧
    (∃ m, Acp.callGlobal (Acp.apply_sandbox env) "eval" = .thrown m) ∧
    (∃ m, Acp.callGlobal (Acp.apply_sandbox env) "Function" = .thrown m) ∧
    (Acp.refGlobal (Acp.apply_sandbox env) "WebAssembly" =
        .value Acp.JsVal.undef ∨
      ∃ m, Acp.refGlobal (Acp.apply_sandbox env) "WebAssembly" = .thrown m) := by
  have hcall : ∀ (n msg : String),
      Acp.apply_sandbox env n =
        (if env.defined n then some (.throwingFn msg) else env n) →
      ∃ m, Acp.callGlobal (Acp.apply_sandbox env) n = .thrown m := by
    intro n msg hl
    rw [Acp.callGlobal, hl]
    cases hd : env.defined n with
    | true => exact ⟨msg, rfl⟩
    | false =>
      rcases Acp.GlobalEnv.defined_false env n hd with he | he <;> simp [he]
  refine ⟨hcall "fetch" _ (Acp.apply_sandbox_lookup_fetch env),
    hcall "eval" _ (Acp.apply_sandbox_lookup_eval env),
    hcall "Function" _ (Acp.apply_sandbox_lookup_function env), ?_⟩
  rw [Acp.refGlobal, Acp.apply_sandbox_lookup_wasm env]
  cases hd : env.defined "WebAssembly" with
  | true => exact Or.inl rfl
  | false =>
    rcases Acp.GlobalEnv.defined_false env _ hd with he | he <;> rw [he]
    · exact Or.inr ⟨_, rfl⟩
    · exact Or.inl rfl

/-- C10: a registry plugin row whose code is absent from the store, or whose
code fails to load as a plugin, is silently skipped by
`find_matching_plugin`: matching over such a row equals matching over the
remaining rows (falling through to later plugins or to the no-match result),
and no error is produced for it. -/
theorem C10_matcher_skips_unloadable_entries (host : String)
    (store : Acp.Store (List Nat)) (loader : Acp.PluginLoader)
    (e : Acp.PluginEntry) (rest : List Acp.PluginEntry) :
    (store.get ("plugin:" ++ e.name) = none →
      Acp.find_matching_plugin host store loader (e :: rest) =
        Acp.find_matching_plugin host store loader rest) ∧
    (∀ (code : List Nat) (msg : String),
      store.get ("plugin:" ++ e.name) = some code →
      loader e.name code = .error msg →
      Acp.find_matching_plugin host store loader (e :: rest) =
        Acp.find_matching_plugin host store loader rest) := by
  constructor
  · intro h
    simp [Acp.find_matching_plugin, h]
  · intro code msg hc hl
    simp [Acp.find_matching_plugin, hc, hl]

/-- Witness for C10: a row with no stored code and a row whose code fails to
load are both skipped at concrete inputs. -/
theorem C10_matcher_skips_unloadable_entries_witness :
    (Acp.find_matching_plugin "api.example.com" []
        (fun _ _ => .error "load error") [⟨"missing", [], []⟩] =
      Acp.find_matching_plugin "api.example.com" []
        (fun _ _ => .error "load error") []) ∧
    (Acp.find_matching_plugin "api.example.com" [("plugin:bad", [33])]
        (fun _ _ => .error "load error") [⟨"bad", [], []⟩] =
      Acp.find_matching_plugin "api.example.com" [("plugin:bad", [33])]
        (fun _ _ => .error "load error") []) :=
  ⟨(C10_matcher_skips_unloadable_entries "api.example.com" []
      (fun _ _ => .error "load error") ⟨"missing", [], []⟩ []).1 rfl,
    (C10_matcher_skips_unloadable_entries "api.example.com"
      [("plugin:bad", [33])] (fun _ _ => .error "load error")
      ⟨"bad", [], []⟩ []).2 [33] "load error" rfl rfl⟩
